import Mathlib

/-!
Verification of the quantitative core of the meeting-place recommendation
script (`scripts/centroid_calculator.py`).

The Python functions are shallowly embedded as Lean definitions:

* Python floats carrying minutes, kilometres and scores are modelled as exact
  rationals (`ℚ`); none of the verified properties depends on binary rounding.
* Python's `datetime`/`timedelta` clock arithmetic is modelled as rational
  minutes-of-day arithmetic with a floor to whole minutes at rendering time,
  which matches `strftime("%H:%M")` on a timezone-naive datetime.
* `datetime.strptime(..., "%H:%M")` is modelled by the backtracking pattern
  CPython's `_strptime` builds for that format: `%H` matches
  `2[0-3]|[0-1]\d|\d`, `%M` matches `[0-5]\d|\d`, the separator is a literal
  colon, and any unconverted trailing input is an error.
* Provider responses (loosely typed nested dicts) are modelled by the `JVal`
  tree, and each extractor is a function into `Except PyExc (Option ℚ)`:
  `.ok none` is Python's `None`, `.error e` is an uncaught exception.
  Containment tests (`"route" in x`) only ever use string needles in the
  source, so list membership is modelled as equality with a string element.
* Python dicts are association lists assumed to have unique keys (JSON input).
-/

/-! ## Generic character/list helpers -/

/-- Numeric value of a digit character. -/
def dval (c : Char) : Nat := c.toNat - 48

/-- Split a character list on a separator character, Python `str.split(sep)`
for a one-character separator: `"".split(":") == [""]`, `"::" -> ["","",""]`. -/
def splitCh (sep : Char) : List Char → List (List Char)
  | [] => [[]]
  | c :: rest =>
    let r := splitCh sep rest
    if c = sep then [] :: r
    else
      match r with
      | g :: gs => (c :: g) :: gs
      | [] => [[c]]

/-- Fuel-driven decimal printer (most significant digit first). -/
def natCharsAux : Nat → Nat → List Char
  | 0, _ => []
  | fuel+1, n =>
    if n < 10 then [Nat.digitChar n]
    else natCharsAux fuel (n / 10) ++ [Nat.digitChar (n % 10)]

/-- Decimal digits of `n`, most significant first, as Python's `str(n)` for a
nonnegative integer. -/
def natChars (n : Nat) : List Char := natCharsAux (n + 1) n

/-- Zero-pad a nonnegative decimal rendering to width two: Python `"%02d"`
for a nonnegative value, and also `strftime`'s `%H`/`%M` rendering. -/
def pad2 (n : Nat) : List Char := if n < 10 then '0' :: natChars n else natChars n

/-- Python `f"{h:02d}"` as a character list (the sign counts toward the
width, so `f"{-5:02d}" == "-5"`). -/
def pyFormat02dL (h : Int) : List Char :=
  if h < 0 then '-' :: natChars h.natAbs else pad2 h.toNat

/-- Whitespace stripped by Python's `int(str)` conversion. -/
def isPySpace (c : Char) : Bool :=
  c = ' ' || c = '\t' || c = '\n' || c = '\r' || c = '\x0b' || c = '\x0c'

/-- Value of a run of decimal digits interleaved with single underscores
(Python's integer-literal digit grammar): every `_`-separated group must be a
nonempty run of digits. -/
def pyDigitGroups (cs : List Char) : Option Nat :=
  let gs := splitCh '_' cs
  if gs.all (fun g => !g.isEmpty && g.all Char.isDigit) then
    some ((gs.flatten).foldl (fun a c => 10 * a + dval c) 0)
  else none

/-- Python `int(s)` on a string: optional surrounding whitespace, one optional
sign, then digits with optional single underscores between digit groups.
`none` models `ValueError`. -/
def pyIntChars (cs : List Char) : Option Int :=
  let t := ((cs.dropWhile isPySpace).reverse.dropWhile isPySpace).reverse
  match t with
  | '-' :: rest => (pyDigitGroups rest).map (fun n => -(n : Int))
  | '+' :: rest => (pyDigitGroups rest).map (fun n => (n : Int))
  | rest => (pyDigitGroups rest).map (fun n => (n : Int))

/-- First-success choice, used to model regex alternation. -/
def oElse {α : Type} (a b : Option α) : Option α :=
  match a with
  | some x => some x
  | none => b

/-! ## `datetime.strptime(s, "%H:%M")`

CPython compiles `%H` to the regex alternation `2[0-3]|[0-1]\d|\d` and `%M`
to `[0-5]\d|\d`; after a successful leftmost match any remaining characters
raise `ValueError` ("unconverted data remains"). -/

/-- `%M` first alternative: `[0-5]\d`. -/
def mAlt1 (cs : List Char) : Option (Nat × List Char) :=
  match cs with
  | c1 :: c2 :: r =>
    if ('0' ≤ c1 ∧ c1 ≤ '5') ∧ c2.isDigit then some (10 * dval c1 + dval c2, r) else none
  | _ => none

/-- `%M` second alternative: a single digit `\d`. -/
def mAlt2 (cs : List Char) : Option (Nat × List Char) :=
  match cs with
  | c :: r => if c.isDigit then some (dval c, r) else none
  | [] => none

/-- The `%M` field matcher. -/
def matchM (cs : List Char) : Option (Nat × List Char) := oElse (mAlt1 cs) (mAlt2 cs)

/-- `%H` first alternative: `2[0-3]`. -/
def hmAlt1 (cs : List Char) : Option (Nat × List Char) :=
  match cs with
  | c1 :: c2 :: r =>
    if c1 = '2' ∧ ('0' ≤ c2 ∧ c2 ≤ '3') then some (20 + dval c2, r) else none
  | _ => none

/-- `%H` second alternative: `[0-1]\d`. -/
def hmAlt2 (cs : List Char) : Option (Nat × List Char) :=
  match cs with
  | c1 :: c2 :: r =>
    if (c1 = '0' ∨ c1 = '1') ∧ c2.isDigit then some (10 * dval c1 + dval c2, r) else none
  | _ => none

/-- `%H` third alternative: a single digit `\d`. -/
def hmAlt3 (cs : List Char) : Option (Nat × List Char) :=
  match cs with
  | c :: r => if c.isDigit then some (dval c, r) else none
  | [] => none

/-- After an `%H` alternative succeeded: match the literal colon, then `%M`.
Failure here makes the regex engine backtrack to the next `%H` alternative. -/
def colonTail (hv : Nat) (cs : List Char) : Option (Nat × Nat × List Char) :=
  match cs with
  | c :: r => if c = ':' then (matchM r).map (fun p => (hv, p.1, p.2)) else none
  | [] => none

/-- Run one `%H` alternative and, on success, the rest of the pattern. -/
def tryAlt (alt : List Char → Option (Nat × List Char)) (cs : List Char) :
    Option (Nat × Nat × List Char) :=
  match alt cs with
  | some (hv, r) => colonTail hv r
  | none => none

/-- Leftmost match of the full `%H:%M` pattern with backtracking across the
`%H` alternatives; returns hour, minute and unconsumed input. -/
def matchHM (cs : List Char) : Option (Nat × Nat × List Char) :=
  oElse (tryAlt hmAlt1 cs) (oElse (tryAlt hmAlt2 cs) (tryAlt hmAlt3 cs))

/-- `datetime.strptime(s, "%H:%M")`, keeping only hour and minute: a match
with unconverted trailing data is a `ValueError`, i.e. `none`. -/
def strptimeHM (cs : List Char) : Option (Nat × Nat) :=
  match matchHM cs with
  | some (h, m, []) => some (h, m)
  | _ => none

/-! ## CentroidCalculator -/

/-- `CentroidCalculator.calculate_centroid`: arithmetic mean of longitudes and
latitudes; raises `ValueError` on an empty list. -/
def calculate_centroid (coordinates : List (ℚ × ℚ)) : Except String (ℚ × ℚ) :=
  if coordinates.isEmpty then .error "坐标列表不能为空"
  else
    let total_lon := (coordinates.map Prod.fst).sum
    let total_lat := (coordinates.map Prod.snd).sum
    let n : ℚ := coordinates.length
    .ok (total_lon / n, total_lat / n)

/-- Minimum of a list of rationals (property-side helper for stating the
bounding-box claim; `0` on the empty list, which is never used). -/
def listMin : List ℚ → ℚ
  | [] => 0
  | [x] => x
  | x :: y :: t => min x (listMin (y :: t))

/-- Maximum of a list of rationals (property-side helper). -/
def listMax : List ℚ → ℚ
  | [] => 0
  | [x] => x
  | x :: y :: t => max x (listMax (y :: t))

/-! ## TravelTimeAnalyzer -/

/-- Result record of `TravelTimeAnalyzer.evaluate_variance`. -/
structure VarianceEval where
  score : Nat
  level : String
  icon : String
  advice : String
deriving DecidableEq

/-- `TravelTimeAnalyzer.evaluate_variance`: fixed thresholds at 50/100/200. -/
def evaluate_variance (variance : ℚ) : VarianceEval :=
  if variance < 50 then
    ⟨5, "非常理想", "⭐⭐⭐⭐⭐", "时间相似度完美，强烈推荐！"⟩
  else if variance < 100 then
    ⟨4, "良好", "⭐⭐⭐⭐", "时间相似度不错，可以接受"⟩
  else if variance < 200 then
    ⟨3, "一般", "⭐⭐⭐", "时间差异有点大，但还可以"⟩
  else
    ⟨2, "不理想", "⭐⭐", "时间差异太大，建议考虑其他地点或方案"⟩

/-- `TravelTimeAnalyzer.recommend_transport_mode`. `bicycle_min = none` is
Python's `None`; the guard `bicycle_min and bicycle_min < 30` is falsy for
`None` and for `0`. Entries are `(mode, minutes, priority)`. -/
def recommend_transport_mode (distance_km driving_min transit_min : ℚ)
    (bicycle_min : Option ℚ) : List (String × ℚ × Nat) :=
  let recommendations : List (String × ℚ × Nat) :=
    if distance_km ≤ 3 then
      (match bicycle_min with
       | some b => if b ≠ 0 ∧ b < 30 then [("🚴 骑行", b, 1)] else []
       | none => []) ++
      (if transit_min < 30 then [("🚇 地铁/公交", transit_min, 2)] else []) ++
      (if driving_min < 20 then [("🚗 驾车", driving_min, 3)] else [])
    else if distance_km ≤ 10 then
      (if driving_min < 40 then [("🚗 驾车", driving_min, 1)] else []) ++
      (if transit_min < 45 then [("🚇 地铁/公交", transit_min, 2)] else [])
    else
      (if driving_min < 60 then [("🚗 驾车", driving_min, 1)] else []) ++
      (if transit_min < 120 then [("🚌 公交/地铁", transit_min, 2)] else [])
  if recommendations.isEmpty then [("🚫 暂无", 999, 0)] else recommendations

/-- Property-side predicate: no mode clears its bracket's threshold, spelled
from the thresholds of `recommend_transport_mode`'s three distance brackets. -/
def noViableMode (distance_km driving_min transit_min : ℚ) (bicycle_min : Option ℚ) : Prop :=
  if distance_km ≤ 3 then
    (∀ b, bicycle_min = some b → ¬(b ≠ 0 ∧ b < 30)) ∧ 30 ≤ transit_min ∧ 20 ≤ driving_min
  else if distance_km ≤ 10 then
    40 ≤ driving_min ∧ 45 ≤ transit_min
  else
    60 ≤ driving_min ∧ 120 ≤ transit_min

/-! ## RestaurantRanker -/

/-- `RestaurantRanker.normalize_value`: linear min-max scaling with the
degenerate-range policy `0.5`. -/
def normalize_value (value min_val max_val : ℚ) : ℚ :=
  if max_val = min_val then 1/2 else (value - min_val) / (max_val - min_val)

/-- `RestaurantRanker.calculate_restaurant_score` (defaults `ref_reviews =
5000`, `ref_distance = 3.0` are passed explicitly at call sites). -/
def calculate_restaurant_score (rating review_count distance_km ref_reviews ref_distance : ℚ) : ℚ :=
  let rating_normalized := rating / 5
  let review_normalized := normalize_value review_count 0 ref_reviews
  let distance_normalized :=
    if distance_km ≤ ref_distance then 1 - (distance_km / ref_distance) * (3/10)
    else max 0 (7/10 - (distance_km - ref_distance) * (1/10))
  (rating_normalized * (7/10) + review_normalized * (2/10) + distance_normalized * (1/10)) * 100

/-- A venue record (the dict of the venue contract, with the fields the
ranker reads given types; `distance_km` and `score` may be absent). -/
structure Restaurant where
  id : String
  name : String
  rating : ℚ
  review_count : Int
  location : String
  distance_km : Option ℚ
  score : Option ℚ
deriving DecidableEq

/-- Distance resolution in `rank_restaurants`: the supplied distance function
applied to the venue's location, else the `distance_km` field, else `1.0`. -/
def resolveDistance (distance_km_func : Option (String → ℚ)) (r : Restaurant) : ℚ :=
  match distance_km_func with
  | some f => f r.location
  | none => r.distance_km.getD 1

/-- The score `rank_restaurants` computes for one venue (with the default
reference values). -/
def scoreOf (distance_km_func : Option (String → ℚ)) (r : Restaurant) : ℚ :=
  calculate_restaurant_score r.rating (r.review_count : ℚ) (resolveDistance distance_km_func r) 5000 3

/-- `restaurant["score"] = ...`: store the computed score on the record. -/
def attachScore (distance_km_func : Option (String → ℚ)) (r : Restaurant) : Restaurant :=
  ⟨r.id, r.name, r.rating, r.review_count, r.location, r.distance_km,
    some (scoreOf distance_km_func r)⟩

/-- The sort key `x["score"]` (always present when sorting: scores were just
attached; the default is never read). -/
def sortKey (r : Restaurant) : ℚ := r.score.getD 0

/-- Stable descending insertion: an element is placed before every element of
equal key, matching the stability of Python's `list.sort(reverse=True)`. -/
def insertDesc (x : Restaurant) : List Restaurant → List Restaurant
  | [] => [x]
  | y :: ys => if sortKey x < sortKey y then y :: insertDesc x ys else x :: y :: ys

/-- Stable descending sort by score; extensionally equal to Python's stable
`sort(key=..., reverse=True)`. -/
def sortDesc : List Restaurant → List Restaurant
  | [] => []
  | x :: xs => insertDesc x (sortDesc xs)

/-- `RestaurantRanker.rank_restaurants`: attach a score to every venue, then
stable-sort descending by score. -/
def rank_restaurants (restaurants : List Restaurant)
    (distance_km_func : Option (String → ℚ)) : List Restaurant :=
  sortDesc (restaurants.map (attachScore distance_km_func))

/-! ## DepartureTimeCalculator -/

/-- One entry of `calculate_departure_times`' result. -/
structure DepartureEntry where
  name : String
  travel_min : ℚ
  buffer_min : ℚ
  departure_time : String
  arrival_time : String
deriving DecidableEq

/-- The meeting-time parse of `calculate_departure_times`:
`hours, minutes = map(int, meeting_time.split(":"))` followed by
`datetime.strptime(f"{hours:02d}:{minutes:02d}", "%H:%M")`. Any `ValueError`
on the way (wrong number of parts, non-integer part, rejected reformatted
string) is `none`. -/
def parseMeetingTime (s : String) : Option (Nat × Nat) :=
  match splitCh ':' s.data with
  | [a, b] =>
    match pyIntChars a, pyIntChars b with
    | some h, some m => strptimeHM (pyFormat02dL h ++ ':' :: pyFormat02dL m)
    | _, _ => none
  | _ => none

/-- `strftime("%H:%M")` of a datetime lying `t` (rational) minutes after some
midnight: minutes-of-day are reduced modulo one day, then floored to a whole
minute. -/
def fmtClock (t : ℚ) : String :=
  let n : Nat := (Int.emod (Rat.floor t) 1440).toNat
  String.mk (pad2 (n / 60) ++ ':' :: pad2 (n % 60))

/-- `DepartureTimeCalculator.calculate_departure_times`. The loop truncates
at the shorter of `participants`/`travel_times` (the `break`), which is a
`zip`. -/
def calculate_departure_times (meeting_time : String) (participants : List String)
    (travel_times : List ℚ) (buffer_min : ℚ) : Except String (List DepartureEntry) :=
  match parseMeetingTime meeting_time with
  | none => .error ("时间格式错误: " ++ meeting_time ++ "，应为 HH:MM")
  | some (h, m) =>
    let meetingMin : ℚ := (h : ℚ) * 60 + (m : ℚ)
    .ok ((participants.zip travel_times).map (fun pt =>
      ⟨pt.1, pt.2, buffer_min,
       fmtClock (meetingMin - (pt.2 + buffer_min)), fmtClock meetingMin⟩))

/-- Strict 24-hour `HH:MM` (the spec's words, for the format claim): exactly
two zero-padded two-digit fields `00..23` and `00..59` joined by a colon. -/
def specStrictHHMM (s : String) : Bool :=
  match s.data with
  | [h1, h2, c, m1, m2] =>
    c = ':' && h1.isDigit && h2.isDigit && m1.isDigit && m2.isDigit &&
      (10 * dval h1 + dval h2 < 24) && (10 * dval m1 + dval m2 < 60)
  | _ => false

/-! ## TravelTimeExtractor

The provider response is a loosely typed nested value. Each extractor body is
a computation in `Except PyExc` mirroring the Python statements; the
surrounding `try/except (KeyError, TypeError, ValueError)` then converts
exactly those three exceptions into the `None` fall-through. -/

/-- A JSON-like Python value as received from the mapping provider. -/
inductive JVal where
  | jnull
  | jbool (b : Bool)
  | jnum (n : Int)
  | jstr (s : String)
  | jarr (xs : List JVal)
  | jobj (fields : List (String × JVal))

/-- The Python exceptions these functions can raise. -/
inductive PyExc where
  | keyError
  | typeError
  | valueError
  | attributeError
  | indexError
deriving DecidableEq

/-- Substring test on character lists (Python `needle in haystack` for
strings). -/
def containsSub (needle : List Char) : List Char → Bool
  | [] => needle.isEmpty
  | c :: rest => needle.isPrefixOf (c :: rest) || containsSub needle rest

/-- Python `key in v` for a string `key` (the only needles in the source are
string literals): dict key lookup, list membership (a non-string element never
equals a string), substring test, `TypeError` for non-containers. -/
def pyContains (key : String) : JVal → Except PyExc Bool
  | .jobj fields => .ok (fields.any (fun p => p.1 == key))
  | .jarr xs =>
    .ok (xs.any (fun x => match x with
      | .jstr t => t == key
      | _ => false))
  | .jstr t => .ok (containsSub key.data t.data)
  | _ => .error .typeError

/-- Python `v[key]` for a string `key`: dict lookup (`KeyError` when absent),
`TypeError` on lists/strings (which only take integer indices) and on
non-subscriptables. -/
def pySubscriptStr (v : JVal) (key : String) : Except PyExc JVal :=
  match v with
  | .jobj fields =>
    match fields.find? (fun p => p.1 == key) with
    | some p => .ok p.2
    | none => .error .keyError
  | _ => .error .typeError

/-- Python truthiness of the modelled values. -/
def pyTruthy : JVal → Bool
  | .jnull => false
  | .jbool b => b
  | .jnum n => n != 0
  | .jstr s => !s.isEmpty
  | .jarr xs => !xs.isEmpty
  | .jobj fields => !fields.isEmpty

/-- Python `len(v)`. -/
def pyLen : JVal → Except PyExc Nat
  | .jstr s => .ok s.length
  | .jarr xs => .ok xs.length
  | .jobj fields => .ok fields.length
  | _ => .error .typeError

/-- Python `v[0]`: list head (`IndexError` when empty), first character of a
string, `KeyError` on a dict whose keys are strings, `TypeError` otherwise. -/
def pyIndex0 : JVal → Except PyExc JVal
  | .jarr (x :: _) => .ok x
  | .jarr [] => .error .indexError
  | .jstr s =>
    match s.data with
    | c :: _ => .ok (.jstr (String.mk [c]))
    | [] => .error .indexError
  | .jobj _ => .error .keyError
  | _ => .error .typeError

/-- Python `v.get(key, default)`: only dicts have `.get`; every other value
raises `AttributeError` — which the extractors do NOT catch. -/
def pyDictGet (v : JVal) (key : String) (default : JVal) : Except PyExc JVal :=
  match v with
  | .jobj fields =>
    match fields.find? (fun p => p.1 == key) with
    | some p => .ok p.2
    | none => .ok default
  | _ => .error .attributeError

/-- Python `int(v)`: ints unchanged, bools as 0/1, strings via the integer
grammar (`ValueError` on failure), `TypeError` otherwise. -/
def pyToInt : JVal → Except PyExc Int
  | .jnum n => .ok n
  | .jbool b => .ok (if b then 1 else 0)
  | .jstr s =>
    match pyIntChars s.data with
    | some n => .ok n
    | none => .error .valueError
  | _ => .error .typeError

/-- Python `for x in v`: lists yield elements, strings their characters,
dicts their keys; other values raise `TypeError`. -/
def pyIterate : JVal → Except PyExc (List JVal)
  | .jarr xs => .ok xs
  | .jstr s => .ok (s.data.map (fun c => .jstr (String.mk [c])))
  | .jobj fields => .ok (fields.map (fun p => .jstr p.1))
  | _ => .error .typeError

/-- `except (KeyError, TypeError, ValueError): pass; return None` — those
three exceptions become the `None` result; any other exception
(`AttributeError`, `IndexError`) propagates. -/
def tryKTV (x : Except PyExc (Option ℚ)) : Except PyExc (Option ℚ) :=
  match x with
  | .error .keyError => .ok none
  | .error .typeError => .ok none
  | .error .valueError => .ok none
  | other => other

/-- Body of `TravelTimeExtractor.extract_driving_time` (inside the `try`). -/
def drivingBody (api_response : JVal) : Except PyExc (Option ℚ) := do
  let hasRoute ← pyContains "route" api_response
  if hasRoute then
    let route ← pySubscriptStr api_response "route"
    let hasPaths ← pyContains "paths" route
    if hasPaths then
      let paths ← pySubscriptStr route "paths"
      if pyTruthy paths then
        let n ← pyLen paths
        if n > 0 then
          let p0 ← pyIndex0 paths
          let dur ← pyDictGet p0 "duration" (.jnum 0)
          let duration_seconds ← pyToInt dur
          return some ((duration_seconds : ℚ) / 60)
        else return none
      else return none
    else return none
  else return none

/-- `TravelTimeExtractor.extract_driving_time`. -/
def extract_driving_time (api_response : JVal) : Except PyExc (Option ℚ) :=
  tryKTV (drivingBody api_response)

/-- Body of `TravelTimeExtractor.extract_transit_time` (inside the `try`):
minimum duration over all transit itineraries, starting from `float('inf')`
(modelled as `Option Int`). -/
def transitTimeBody (api_response : JVal) : Except PyExc (Option ℚ) := do
  let hasRoute ← pyContains "route" api_response
  if hasRoute then
    let route ← pySubscriptStr api_response "route"
    let hasTransits ← pyContains "transits" route
    if hasTransits then
      let transits ← pySubscriptStr route "transits"
      if pyTruthy transits then
        let elems ← pyIterate transits
        let min_duration ← elems.foldlM (fun (acc : Option Int) transit => do
          let dur ← pyDictGet transit "duration" (.jnum 0)
          let s ← pyToInt dur
          pure (some (match acc with
            | none => s
            | some a => min a s))) none
        match min_duration with
        | some v => return some ((v : ℚ) / 60)
        | none => return none
      else return none
    else return none
  else return none

/-- `TravelTimeExtractor.extract_transit_time`. -/
def extract_transit_time (api_response : JVal) : Except PyExc (Option ℚ) :=
  tryKTV (transitTimeBody api_response)

/-- Body of `TravelTimeExtractor.extract_bicycling_time` (inside the `try`):
route-level duration, treated as absent unless strictly positive. -/
def bicyclingBody (api_response : JVal) : Except PyExc (Option ℚ) := do
  let hasRoute ← pyContains "route" api_response
  if hasRoute then
    let route ← pySubscriptStr api_response "route"
    let dur ← pyDictGet route "duration" (.jnum 0)
    let duration_seconds ← pyToInt dur
    if duration_seconds > 0 then
      return some ((duration_seconds : ℚ) / 60)
    else return none
  else return none

/-- `TravelTimeExtractor.extract_bicycling_time`. -/
def extract_bicycling_time (api_response : JVal) : Except PyExc (Option ℚ) :=
  tryKTV (bicyclingBody api_response)

/-- Body of `TravelTimeExtractor.extract_distance` (inside the `try`):
route-level distance in meters, treated as absent unless strictly positive. -/
def distanceBody (api_response : JVal) : Except PyExc (Option ℚ) := do
  let hasRoute ← pyContains "route" api_response
  if hasRoute then
    let route ← pySubscriptStr api_response "route"
    let dist ← pyDictGet route "distance" (.jnum 0)
    let distance_meters ← pyToInt dist
    if distance_meters > 0 then
      return some ((distance_meters : ℚ) / 1000)
    else return none
  else return none

/-- `TravelTimeExtractor.extract_distance`. -/
def extract_distance (api_response : JVal) : Except PyExc (Option ℚ) :=
  tryKTV (distanceBody api_response)

/-! ## Helper lemmas -/

theorem listMin_le : ∀ (l : List ℚ) (x : ℚ), x ∈ l → listMin l ≤ x := by
  intro l
  induction l with
  | nil => intro x hx; cases hx
  | cons a t ih =>
    intro x hx
    cases t with
    | nil =>
      rcases List.mem_singleton.mp hx with rfl
      simp [listMin]
    | cons b u =>
      rcases List.mem_cons.mp hx with rfl | hx'
      · simp [listMin]
      · exact le_trans (by simp [listMin]) (ih x hx')

theorem le_listMax : ∀ (l : List ℚ) (x : ℚ), x ∈ l → x ≤ listMax l := by
  intro l
  induction l with
  | nil => intro x hx; cases hx
  | cons a t ih =>
    intro x hx
    cases t with
    | nil =>
      rcases List.mem_singleton.mp hx with rfl
      simp [listMax]
    | cons b u =>
      rcases List.mem_cons.mp hx with rfl | hx'
      · simp [listMax]
      · exact le_trans (ih x hx') (by simp [listMax])

theorem card_mul_le_sum (l : List ℚ) (a : ℚ) (h : ∀ x ∈ l, a ≤ x) :
    a * l.length ≤ l.sum := by
  induction l with
  | nil => simp
  | cons b t ih =>
    have hb := h b (List.mem_cons_self b t)
    have ht := ih (fun x hx => h x (List.mem_cons_of_mem b hx))
    simp only [List.sum_cons, List.length_cons]
    push_cast
    nlinarith [ht, hb]

theorem sum_le_card_mul (l : List ℚ) (a : ℚ) (h : ∀ x ∈ l, x ≤ a) :
    l.sum ≤ a * l.length := by
  induction l with
  | nil => simp
  | cons b t ih =>
    have hb := h b (List.mem_cons_self b t)
    have ht := ih (fun x hx => h x (List.mem_cons_of_mem b hx))
    simp only [List.sum_cons, List.length_cons]
    push_cast
    nlinarith [ht, hb]

theorem ite_isEmpty_ne_nil (l : List (String × ℚ × Nat)) (s : String × ℚ × Nat) :
    (if l.isEmpty then [s] else l) ≠ [] := by
  cases l <;> simp

/-! ## Claim theorems -/

/-- C9: for every variance value, `evaluate_variance` returns a score in
`{2, 3, 4, 5}`; in particular score `1` is never produced. -/
theorem evaluate_variance_score_range :
    ∀ variance : ℚ,
      ((evaluate_variance variance).score = 2 ∨ (evaluate_variance variance).score = 3 ∨
        (evaluate_variance variance).score = 4 ∨ (evaluate_variance variance).score = 5) ∧
      (evaluate_variance variance).score ≠ 1 := by
  intro v
  unfold evaluate_variance
  split_ifs <;> simp

/-- C5: `recommend_transport_mode` always returns a non-empty list, and when
no mode clears its bracket's threshold the result is exactly the single
sentinel entry with duration 999 and priority 0. -/
theorem recommend_transport_mode_nonempty_and_sentinel :
    ∀ (distance_km driving_min transit_min : ℚ) (bicycle_min : Option ℚ),
      recommend_transport_mode distance_km driving_min transit_min bicycle_min ≠ [] ∧
      (noViableMode distance_km driving_min transit_min bicycle_min →
        recommend_transport_mode distance_km driving_min transit_min bicycle_min =
          [("🚫 暂无", 999, 0)]) := by
  intro d drv tr bik
  constructor
  · exact ite_isEmpty_ne_nil _ _
  · intro hnv
    unfold noViableMode at hnv
    unfold recommend_transport_mode
    split_ifs at hnv with h3 h10
    · obtain ⟨hb, ht, hd⟩ := hnv
      have hbl : (match bik with
          | some b => if b ≠ 0 ∧ b < 30 then [("🚴 骑行", b, 1)] else []
          | none => ([] : List (String × ℚ × Nat))) = [] := by
        cases bik with
        | none => rfl
        | some b => exact if_neg (hb b rfl)
      simp [h3, hbl, if_neg (not_lt.mpr ht), if_neg (not_lt.mpr hd)]
    · obtain ⟨hd, ht⟩ := hnv
      simp [h3, h10, if_neg (not_lt.mpr ht), if_neg (not_lt.mpr hd)]
    · obtain ⟨hd, ht⟩ := hnv
      simp [h3, h10, if_neg (not_lt.mpr ht), if_neg (not_lt.mpr hd)]

/-- C5 witness: for a 3–10 km bracket input clearing no threshold the result
is the sentinel (hence non-empty). -/
theorem recommend_transport_mode_nonempty_and_sentinel_witness :
    recommend_transport_mode 5 100 100 none ≠ [] ∧
    recommend_transport_mode 5 100 100 none = [("🚫 暂无", 999, 0)] := by
  refine ⟨(recommend_transport_mode_nonempty_and_sentinel 5 100 100 none).1, ?_⟩
  refine (recommend_transport_mode_nonempty_and_sentinel 5 100 100 none).2 ?_
  unfold noViableMode
  norm_num

/-- C10: for distances in the richest bracket (≤ 3 km) a supplied bicycling
duration of 0 behaves exactly like an absent one, and no bicycling entry is
produced. -/
theorem recommend_transport_mode_zero_bicycle :
    ∀ (distance_km driving_min transit_min : ℚ), distance_km ≤ 3 →
      recommend_transport_mode distance_km driving_min transit_min (some 0) =
        recommend_transport_mode distance_km driving_min transit_min none ∧
      ∀ r ∈ recommend_transport_mode distance_km driving_min transit_min (some 0),
        r.1 ≠ "🚴 骑行" := by
  intro d drv tr h3
  have hz : ((0:ℚ) ≠ 0 ∧ (0:ℚ) < 30) = False := by simp
  constructor
  · unfold recommend_transport_mode
    simp
  · intro r hr
    unfold recommend_transport_mode at hr
    rw [if_pos h3] at hr
    simp only [hz, ne_eq, not_true_eq_false, false_and, if_false] at hr
    by_cases htr : tr < 30 <;> by_cases hdrv : drv < 20 <;>
      simp [htr, hdrv] at hr
    · rcases hr with rfl | rfl <;> simp
    · rcases hr with rfl; simp
    · rcases hr with rfl; simp
    · rcases hr with rfl; simp

/-- C10 witness: at distance 1 km with no viable bus/car, a zero bicycling
duration yields the same (sentinel) result as an absent one. -/
theorem recommend_transport_mode_zero_bicycle_witness :
    recommend_transport_mode 1 100 100 (some 0) = recommend_transport_mode 1 100 100 none ∧
    ∀ r ∈ recommend_transport_mode 1 100 100 (some 0), r.1 ≠ "🚴 骑行" :=
  recommend_transport_mode_zero_bicycle 1 100 100 (by norm_num)

/-- C3 counterexample: with rating 5 ∈ [0,5], reviewCount 50000 ≥ 0 and
distance 0 ≥ 0 (default references), the score is 280, far above 100 — the
review term is uncapped, refuting "score ∈ [0,100]" for all reviewCount ≥ 0. -/
theorem calculate_restaurant_score_above_100_counterexample :
    (0:ℚ) ≤ 5 ∧ (5:ℚ) ≤ 5 ∧ (0:ℚ) ≤ 50000 ∧ (0:ℚ) ≤ 0 ∧
      calculate_restaurant_score 5 50000 0 5000 3 = 280 ∧
      ¬calculate_restaurant_score 5 50000 0 5000 3 ≤ 100 := by
  have h : calculate_restaurant_score 5 50000 0 5000 3 = 280 := by with_unfolding_all rfl
  refine ⟨by norm_num, le_refl 5, by norm_num, le_refl 0, h, ?_⟩
  rw [h]; norm_num

/-- C3 (amended): with the default references, for rating ∈ [0,5],
0 ≤ reviewCount ≤ reviewReference = 5000 and distanceKm ≥ 0, the score lies
in [0,100]; the lower bound needs no review cap, the upper bound does. -/
theorem calculate_restaurant_score_in_range (rating review_count distance_km : ℚ)
    (h1 : 0 ≤ rating) (h2 : rating ≤ 5) (h3 : 0 ≤ review_count)
    (h4 : review_count ≤ 5000) (h5 : 0 ≤ distance_km) :
    0 ≤ calculate_restaurant_score rating review_count distance_km 5000 3 ∧
      calculate_restaurant_score rating review_count distance_km 5000 3 ≤ 100 := by
  unfold calculate_restaurant_score normalize_value
  rw [if_neg (by norm_num : ¬(5000:ℚ) = 0)]
  by_cases hd : distance_km ≤ 3
  · rw [if_pos hd]
    constructor <;> nlinarith
  · rw [if_neg hd]
    rcases le_or_lt (7/10 - (distance_km - 3) * (1/10)) 0 with hc | hc
    · rw [max_eq_left hc]
      constructor <;> nlinarith
    · rw [max_eq_right hc.le]
      constructor <;> nlinarith

/-- C3 witness: the saturating input rating 5, reviewCount 5000, distance 0
satisfies the bounds. -/
theorem calculate_restaurant_score_in_range_witness :
    0 ≤ calculate_restaurant_score 5 5000 0 5000 3 ∧
      calculate_restaurant_score 5 5000 0 5000 3 ≤ 100 :=
  calculate_restaurant_score_in_range 5 5000 0 (by norm_num) (by norm_num) (by norm_num)
    (by norm_num) (by norm_num)

/-- C7: whenever `calculate_centroid` succeeds, the centroid's longitude lies
between the minimum and maximum input longitude, and its latitude between the
minimum and maximum input latitude. -/
theorem calculate_centroid_within_bounds (coordinates : List (ℚ × ℚ)) (c : ℚ × ℚ)
    (h : calculate_centroid coordinates = .ok c) :
    listMin (coordinates.map Prod.fst) ≤ c.1 ∧ c.1 ≤ listMax (coordinates.map Prod.fst) ∧
      listMin (coordinates.map Prod.snd) ≤ c.2 ∧ c.2 ≤ listMax (coordinates.map Prod.snd) := by
  unfold calculate_centroid at h
  by_cases he : coordinates.isEmpty
  · rw [if_pos he] at h; cases h
  · rw [if_neg he] at h
    injection h with h
    subst h
    have hlen : (0:ℚ) < coordinates.length := by
      cases coordinates with
      | nil => simp at he
      | cons a t =>
        have hp : (0:ℕ) < (a :: t).length := Nat.succ_pos _
        exact_mod_cast hp
    have hfst : ((coordinates.map Prod.fst).length : ℚ) = (coordinates.length : ℚ) := by
      rw [List.length_map]
    have hsnd : ((coordinates.map Prod.snd).length : ℚ) = (coordinates.length : ℚ) := by
      rw [List.length_map]
    refine ⟨?_, ?_, ?_, ?_⟩
    · rw [le_div_iff₀ hlen, ← hfst]
      exact card_mul_le_sum _ _ (fun x hx => listMin_le _ x hx)
    · rw [div_le_iff₀ hlen, ← hfst]
      exact sum_le_card_mul _ _ (fun x hx => le_listMax _ x hx)
    · rw [le_div_iff₀ hlen, ← hsnd]
      exact card_mul_le_sum _ _ (fun x hx => listMin_le _ x hx)
    · rw [div_le_iff₀ hlen, ← hsnd]
      exact sum_le_card_mul _ _ (fun x hx => le_listMax _ x hx)

/-- C7 witness: the centroid of (0,0) and (2,4) is (1,2), inside the
bounding box. -/
theorem calculate_centroid_within_bounds_witness :
    listMin ([((0:ℚ), (0:ℚ)), (2, 4)].map Prod.fst) ≤ ((1:ℚ), (2:ℚ)).1 ∧
      ((1:ℚ), (2:ℚ)).1 ≤ listMax ([((0:ℚ), (0:ℚ)), (2, 4)].map Prod.fst) ∧
      listMin ([((0:ℚ), (0:ℚ)), (2, 4)].map Prod.snd) ≤ ((1:ℚ), (2:ℚ)).2 ∧
      ((1:ℚ), (2:ℚ)).2 ≤ listMax ([((0:ℚ), (0:ℚ)), (2, 4)].map Prod.snd) :=
  calculate_centroid_within_bounds [(0, 0), (2, 4)] (1, 2) (by with_unfolding_all rfl)

theorem attachScore_idem (f : Option (String → ℚ)) (r : Restaurant) :
    attachScore f (attachScore f r) = attachScore f r := rfl

theorem mem_insertDesc {x y : Restaurant} :
    ∀ {l : List Restaurant}, y ∈ insertDesc x l ↔ y = x ∨ y ∈ l := by
  intro l
  induction l with
  | nil => simp [insertDesc]
  | cons z zs ih =>
    unfold insertDesc
    by_cases hxz : sortKey x < sortKey z
    · rw [if_pos hxz]
      simp only [List.mem_cons, ih]
      tauto
    · rw [if_neg hxz]
      simp only [List.mem_cons]

theorem mem_sortDesc {y : Restaurant} : ∀ {l : List Restaurant}, y ∈ sortDesc l ↔ y ∈ l := by
  intro l
  induction l with
  | nil => simp [sortDesc]
  | cons z zs ih =>
    show y ∈ insertDesc z (sortDesc zs) ↔ _
    rw [mem_insertDesc]
    simp only [List.mem_cons, ih]

theorem insertDesc_sorted (x : Restaurant) (l : List Restaurant)
    (h : l.Pairwise (fun a b => sortKey b ≤ sortKey a)) :
    (insertDesc x l).Pairwise (fun a b => sortKey b ≤ sortKey a) := by
  induction l with
  | nil => simp [insertDesc]
  | cons y ys ih =>
    rw [List.pairwise_cons] at h
    obtain ⟨hy, hys⟩ := h
    unfold insertDesc
    by_cases hxy : sortKey x < sortKey y
    · rw [if_pos hxy, List.pairwise_cons]
      refine ⟨?_, ih hys⟩
      intro a ha
      rcases mem_insertDesc.mp ha with rfl | ha'
      · exact le_of_lt hxy
      · exact hy a ha'
    · rw [if_neg hxy, List.pairwise_cons]
      refine ⟨?_, List.pairwise_cons.mpr ⟨hy, hys⟩⟩
      intro a ha
      rcases List.mem_cons.mp ha with rfl | ha'
      · exact not_lt.mp hxy
      · exact le_trans (hy a ha') (not_lt.mp hxy)

theorem sortDesc_sorted : ∀ l : List Restaurant,
    (sortDesc l).Pairwise (fun a b => sortKey b ≤ sortKey a) := by
  intro l
  induction l with
  | nil => simp [sortDesc]
  | cons x xs ih => exact insertDesc_sorted x _ ih

theorem sortDesc_of_sorted : ∀ l : List Restaurant,
    l.Pairwise (fun a b => sortKey b ≤ sortKey a) → sortDesc l = l := by
  intro l h
  induction l with
  | nil => rfl
  | cons x xs ih =>
    rw [List.pairwise_cons] at h
    obtain ⟨hx, hxs⟩ := h
    show insertDesc x (sortDesc xs) = x :: xs
    rw [ih hxs]
    cases xs with
    | nil => rfl
    | cons y ys =>
      unfold insertDesc
      rw [if_neg (not_lt.mpr (hx y (List.mem_cons_self y ys)))]

theorem map_eq_self_of_mem {g : Restaurant → Restaurant} :
    ∀ {l : List Restaurant}, (∀ x ∈ l, g x = x) → l.map g = l := by
  intro l
  induction l with
  | nil => intro _; rfl
  | cons x xs ih =>
    intro h
    simp only [List.map_cons]
    rw [h x (List.mem_cons_self x xs), ih (fun y hy => h y (List.mem_cons_of_mem x hy))]

/-- C8: `rank_restaurants` is idempotent — re-ranking an already ranked list
(same optional distance function) changes neither the order nor any score. -/
theorem rank_restaurants_idempotent :
    ∀ (restaurants : List Restaurant) (distance_km_func : Option (String → ℚ)),
      rank_restaurants (rank_restaurants restaurants distance_km_func) distance_km_func =
        rank_restaurants restaurants distance_km_func := by
  intro rs f
  unfold rank_restaurants
  have hmap : (sortDesc (rs.map (attachScore f))).map (attachScore f) =
      sortDesc (rs.map (attachScore f)) := by
    apply map_eq_self_of_mem
    intro x hx
    rcases List.mem_map.mp (mem_sortDesc.mp hx) with ⟨y, _, rfl⟩
    exact attachScore_idem f y
  rw [hmap]
  exact sortDesc_of_sorted _ (sortDesc_sorted _)

/-- C2 counterexample: on the fixture input `("14:30", [A,B,C], [19,6,17])`
with the 5-minute buffer the departure times are NOT `14:10/14:19/14:08`:
the first participant departs at `14:06 = 14:30 − (19+5) min`; the `14:10` of
the docstring/spec fixture is arithmetically inconsistent with the other two
entries. -/
theorem calculate_departure_times_fixture_counterexample :
    (calculate_departure_times "14:30" ["A", "B", "C"] [19, 6, 17] 5).map
        (List.map (fun e => e.departure_time)) ≠ .ok ["14:10", "14:19", "14:08"] := by
  intro hcontra
  have h : (calculate_departure_times "14:30" ["A", "B", "C"] [19, 6, 17] 5).map
      (List.map (fun e => e.departure_time)) = .ok ["14:06", "14:19", "14:08"] := by
    with_unfolding_all rfl
  rw [h] at hcontra
  simp at hcontra

/-- C2 (amended): the fixture yields exactly three entries, in input order,
with departures `14:06`, `14:19`, `14:08` and arrival `14:30` each. -/
theorem calculate_departure_times_fixture :
    calculate_departure_times "14:30" ["A", "B", "C"] [19, 6, 17] 5 =
      .ok [⟨"A", 19, 5, "14:06", "14:30"⟩, ⟨"B", 6, 5, "14:19", "14:30"⟩,
        ⟨"C", 17, 5, "14:08", "14:30"⟩] := by
  with_unfolding_all rfl

theorem zip_map_fst_take : ∀ (ps : List String) (ts : List ℚ),
    (ps.zip ts).map Prod.fst = ps.take ts.length := by
  intro ps
  induction ps with
  | nil => intro ts; simp
  | cons p ps' ih =>
    intro ts
    cases ts with
    | nil => simp
    | cons t ts' => simp [List.zip_cons_cons, ih]

theorem zip_map_snd_of_le : ∀ (ps : List String) (ts : List ℚ),
    ts.length ≤ ps.length → (ps.zip ts).map Prod.snd = ts := by
  intro ps
  induction ps with
  | nil =>
    intro ts h
    cases ts with
    | nil => simp
    | cons t ts' => simp at h
  | cons p ps' ih =>
    intro ts h
    cases ts with
    | nil => simp
    | cons t ts' =>
      simp only [List.zip_cons_cons, List.map_cons]
      rw [ih ts' (by simpa using h)]

/-- C6: with a parseable meeting time and fewer travel times than
participants, `calculate_departure_times` succeeds (no error) and returns one
entry per travel time, aligned by index with the first participants; the
remaining participants are silently skipped. -/
theorem calculate_departure_times_truncates (meeting_time : String)
    (participants : List String) (travel_times : List ℚ) (buffer_min : ℚ)
    (hparse : (parseMeetingTime meeting_time).isSome)
    (hlen : travel_times.length ≤ participants.length) :
    ∃ l, calculate_departure_times meeting_time participants travel_times buffer_min = .ok l ∧
      l.length = travel_times.length ∧
      l.map (fun e => e.name) = participants.take travel_times.length ∧
      l.map (fun e => e.travel_min) = travel_times := by
  rcases Option.isSome_iff_exists.mp hparse with ⟨⟨hh, mm⟩, hp⟩
  unfold calculate_departure_times
  rw [hp]
  refine ⟨_, rfl, ?_, ?_, ?_⟩
  · rw [List.length_map, List.length_zip]
    exact Nat.min_eq_right hlen
  · rw [List.map_map]
    exact zip_map_fst_take participants travel_times
  · rw [List.map_map]
    exact zip_map_snd_of_le participants travel_times hlen

/-- C6 witness: two participants, one travel time — one entry, for "A". -/
theorem calculate_departure_times_truncates_witness :
    ∃ l, calculate_departure_times "14:30" ["A", "B"] [3] 5 = .ok l ∧
      l.length = [(3:ℚ)].length ∧
      l.map (fun e => e.name) = ["A", "B"].take [(3:ℚ)].length ∧
      l.map (fun e => e.travel_min) = [(3:ℚ)] :=
  calculate_departure_times_truncates "14:30" ["A", "B"] [3] 5 (by decide) (by decide)

/-- C1 (code bug evidence): on the response `{"route": {"paths": [5]}}` —
where the first path is of the wrong type — `extract_driving_time` does not
return the claimed "no result": `paths[0].get(...)` raises `AttributeError`,
which the `except (KeyError, TypeError, ValueError)` clause does not catch. -/
theorem extract_driving_time_attributeError :
    extract_driving_time (.jobj [("route", .jobj [("paths", .jarr [.jnum 5])])]) =
      .error .attributeError := by
  with_unfolding_all rfl

/-! ## Lemmas about the decimal printer and the `%H:%M` matcher -/

theorem natCharsAux_eq_natChars : ∀ (n f : Nat), n < f → natCharsAux f n = natChars n := by
  intro n
  induction n using Nat.strong_induction_on with
  | _ n ih =>
    intro f hf
    cases f with
    | zero => omega
    | succ a =>
      have e1 : natCharsAux (a + 1) n =
          if n < 10 then [Nat.digitChar n]
          else natCharsAux a (n / 10) ++ [Nat.digitChar (n % 10)] := rfl
      have e2 : natChars n =
          if n < 10 then [Nat.digitChar n]
          else natCharsAux n (n / 10) ++ [Nat.digitChar (n % 10)] := rfl
      rw [e1, e2]
      by_cases h : n < 10
      · rw [if_pos h, if_pos h]
      · rw [if_neg h, if_neg h]
        have hlt : n / 10 < n := Nat.div_lt_self (by omega) (by omega)
        rw [ih (n / 10) hlt a (by omega), ih (n / 10) hlt n (by omega)]

theorem natChars_eq (n : Nat) :
    natChars n = if n < 10 then [Nat.digitChar n]
      else natChars (n / 10) ++ [Nat.digitChar (n % 10)] := by
  have e2 : natChars n =
      if n < 10 then [Nat.digitChar n]
      else natCharsAux n (n / 10) ++ [Nat.digitChar (n % 10)] := rfl
  rw [e2]
  by_cases h : n < 10
  · rw [if_pos h, if_pos h]
  · rw [if_neg h, if_neg h]
    rw [natCharsAux_eq_natChars (n / 10) n (Nat.div_lt_self (by omega) (by omega))]

theorem natChars_lt10 {n : Nat} (h : n < 10) : natChars n = [Nat.digitChar n] := by
  rw [natChars_eq, if_pos h]

theorem natChars_two {n : Nat} (h10 : 10 ≤ n) (h100 : n < 100) :
    natChars n = [Nat.digitChar (n / 10), Nat.digitChar (n % 10)] := by
  rw [natChars_eq, if_neg (by omega), natChars_lt10 (by omega : n / 10 < 10)]
  rfl

theorem natChars_ne_nil (n : Nat) : natChars n ≠ [] := by
  rw [natChars_eq]
  by_cases h : n < 10
  · simp [h]
  · simp [h]

theorem digitChar_isDigit : ∀ d : Nat, d < 10 → (Nat.digitChar d).isDigit = true := by decide

theorem natChars_all_digit : ∀ n : Nat, ∀ c ∈ natChars n, c.isDigit = true := by
  intro n
  induction n using Nat.strong_induction_on with
  | _ n ih =>
    intro c hc
    rw [natChars_eq] at hc
    by_cases h : n < 10
    · rw [if_pos h] at hc
      rcases List.mem_singleton.mp hc with rfl
      exact digitChar_isDigit n h
    · rw [if_neg h] at hc
      rcases List.mem_append.mp hc with hc' | hc'
      · exact ih (n / 10) (Nat.div_lt_self (by omega) (by omega)) c hc'
      · rcases List.mem_singleton.mp hc' with rfl
        exact digitChar_isDigit (n % 10) (Nat.mod_lt n (by omega))

theorem natChars_len2 {n : Nat} (h : 10 ≤ n) : 2 ≤ (natChars n).length := by
  rw [natChars_eq, if_neg (by omega), List.length_append]
  have hpos : 0 < (natChars (n / 10)).length :=
    List.length_pos.mpr (natChars_ne_nil (n / 10))
  simp only [List.length_singleton]
  omega

theorem natChars_len3 {n : Nat} (h : 100 ≤ n) : 3 ≤ (natChars n).length := by
  rw [natChars_eq, if_neg (by omega), List.length_append]
  have h2 := natChars_len2 (show 10 ≤ n / 10 by omega)
  simp only [List.length_singleton]
  omega

theorem digitChar_guard_le3 : ∀ d : Nat, d < 10 →
    ((('0' ≤ Nat.digitChar d ∧ Nat.digitChar d ≤ '3')) ↔ d ≤ 3) := by decide

theorem digitChar_guard_le5 : ∀ d : Nat, d < 10 →
    ((('0' ≤ Nat.digitChar d ∧ Nat.digitChar d ≤ '5')) ↔ d ≤ 5) := by decide

theorem digitChar_eq_two : ∀ d : Nat, d < 10 → ((Nat.digitChar d = '2') ↔ d = 2) := by decide

theorem digitChar_guard01 : ∀ d : Nat, d < 10 →
    (((Nat.digitChar d = '0') ∨ (Nat.digitChar d = '1')) ↔ d ≤ 1) := by decide

theorem dval_digitChar : ∀ d : Nat, d < 10 → dval (Nat.digitChar d) = d := by decide

theorem isDigit_ne_colon (c : Char) (h : c.isDigit = true) : c ≠ ':' := by
  intro hc
  subst hc
  exact absurd h (by decide)

theorem pyFormat02dL_small {n : Nat} (h100 : n < 100) :
    pyFormat02dL (n : Int) =
      if n < 10 then ['0', Nat.digitChar n]
      else [Nat.digitChar (n / 10), Nat.digitChar (n % 10)] := by
  unfold pyFormat02dL
  rw [if_neg (by omega)]
  have ht : ((n : Int)).toNat = n := by omega
  rw [ht]
  unfold pad2
  by_cases h : n < 10
  · rw [if_pos h, if_pos h, natChars_lt10 h]
  · rw [if_neg h, if_neg h, natChars_two (by omega) h100]

theorem pyFormat02dL_big {n : Nat} (h100 : 100 ≤ n) :
    pyFormat02dL (n : Int) = natChars n := by
  unfold pyFormat02dL
  rw [if_neg (by omega)]
  have ht : ((n : Int)).toNat = n := by omega
  rw [ht]
  unfold pad2
  rw [if_neg (by omega)]

theorem pyFormat02dL_neg {m : Int} (hm : m < 0) :
    pyFormat02dL m = '-' :: natChars m.natAbs := by
  unfold pyFormat02dL
  rw [if_pos hm]

theorem matchM_fmt_in_range : ∀ m : Nat, m < 60 →
    matchM (pyFormat02dL (m : Int)) = some (m, []) := by decide

theorem matchM_fmt_neg {m : Int} (hm : m < 0) : matchM (pyFormat02dL m) = none := by
  rw [pyFormat02dL_neg hm]
  obtain ⟨c, cs, hcs⟩ : ∃ c cs, natChars m.natAbs = c :: cs := by
    cases hnc : natChars m.natAbs with
    | nil => exact absurd hnc (natChars_ne_nil _)
    | cons c cs => exact ⟨c, cs, rfl⟩
  rw [hcs]
  have h1 : mAlt1 ('-' :: c :: cs) = none := by
    simp only [mAlt1]
    rw [if_neg]
    intro hcon
    exact absurd hcon.1.1 (by decide)
  have h2 : mAlt2 ('-' :: c :: cs) = none := by
    simp only [mAlt2]
    rw [if_neg]
    intro hcon
    exact absurd hcon (by decide)
  unfold matchM
  rw [h1, h2]
  rfl

theorem matchM_fmt_ge60 {m : Int} (hm : 60 ≤ m) :
    ∃ v c r, matchM (pyFormat02dL m) = some (v, c :: r) := by
  have hcast : m = ((m.toNat : Nat) : Int) := by omega
  rw [hcast]
  set mn := m.toNat with hmn
  have hmn60 : 60 ≤ mn := by omega
  by_cases hlt : mn < 100
  · rw [pyFormat02dL_small hlt, if_neg (by omega)]
    have hd10 : mn / 10 < 10 := by omega
    have hga : ¬(('0' ≤ Nat.digitChar (mn / 10) ∧ Nat.digitChar (mn / 10) ≤ '5') ∧
        (Nat.digitChar (mn % 10)).isDigit) := by
      intro hcon
      have := (digitChar_guard_le5 (mn / 10) hd10).mp hcon.1
      omega
    refine ⟨dval (Nat.digitChar (mn / 10)), Nat.digitChar (mn % 10), [], ?_⟩
    unfold matchM
    have h1 : mAlt1 [Nat.digitChar (mn / 10), Nat.digitChar (mn % 10)] = none := by
      simp only [mAlt1]
      rw [if_neg hga]
    have h2 : mAlt2 [Nat.digitChar (mn / 10), Nat.digitChar (mn % 10)] =
        some (dval (Nat.digitChar (mn / 10)), [Nat.digitChar (mn % 10)]) := by
      simp only [mAlt2]
      rw [if_pos (digitChar_isDigit _ hd10)]
    rw [h1, h2]
    rfl
  · rw [pyFormat02dL_big (by omega)]
    have h3 := natChars_len3 (show 100 ≤ mn by omega)
    rcases hl : natChars mn with _ | ⟨c1, tl1⟩
    · rw [hl] at h3; simp at h3
    rcases tl1 with _ | ⟨c2, tl2⟩
    · rw [hl] at h3; simp at h3
    rcases tl2 with _ | ⟨c3, r⟩
    · rw [hl] at h3; simp at h3
    have hd1 : c1.isDigit = true := natChars_all_digit mn c1 (by rw [hl]; simp)
    unfold matchM
    by_cases hg : ('0' ≤ c1 ∧ c1 ≤ '5') ∧ c2.isDigit
    · refine ⟨10 * dval c1 + dval c2, c3, r, ?_⟩
      have h1 : mAlt1 (c1 :: c2 :: c3 :: r) = some (10 * dval c1 + dval c2, c3 :: r) := by
        simp only [mAlt1]
        rw [if_pos hg]
      rw [h1]
      rfl
    · refine ⟨dval c1, c2, c3 :: r, ?_⟩
      have h1 : mAlt1 (c1 :: c2 :: c3 :: r) = none := by
        simp only [mAlt1]
        rw [if_neg hg]
      have h2 : mAlt2 (c1 :: c2 :: c3 :: r) = some (dval c1, c2 :: c3 :: r) := by
        simp only [mAlt2]
        rw [if_pos hd1]
      rw [h1, h2]
      rfl

theorem hmAlt1_cons (c1 c2 : Char) (r : List Char) :
    hmAlt1 (c1 :: c2 :: r) =
      if c1 = '2' ∧ ('0' ≤ c2 ∧ c2 ≤ '3') then some (20 + dval c2, r) else none := rfl

theorem hmAlt2_cons (c1 c2 : Char) (r : List Char) :
    hmAlt2 (c1 :: c2 :: r) =
      if (c1 = '0' ∨ c1 = '1') ∧ c2.isDigit then some (10 * dval c1 + dval c2, r) else none := rfl

theorem hmAlt3_cons (c : Char) (r : List Char) :
    hmAlt3 (c :: r) = if c.isDigit then some (dval c, r) else none := rfl

theorem colonTail_colon (v : Nat) (r : List Char) :
    colonTail v (':' :: r) = (matchM r).map (fun p => (v, p.1, p.2)) := by
  have eu : colonTail v (':' :: r) =
      if (':' : Char) = ':' then (matchM r).map (fun p => (v, p.1, p.2)) else none := rfl
  rw [eu, if_pos rfl]

theorem colonTail_not_colon (v : Nat) {c : Char} (hc : c ≠ ':') (r : List Char) :
    colonTail v (c :: r) = none := by
  have eu : colonTail v (c :: r) =
      if c = ':' then (matchM r).map (fun p => (v, p.1, p.2)) else none := rfl
  rw [eu, if_neg hc]

theorem tryAlt_eq_some {alt : List Char → Option (Nat × List Char)} {cs : List Char}
    {v : Nat} {r : List Char} (h : alt cs = some (v, r)) : tryAlt alt cs = colonTail v r := by
  unfold tryAlt
  rw [h]

theorem tryAlt3_digit_digit {c1 c2 : Char} (h1 : c1.isDigit = true) (h2 : c2.isDigit = true)
    (rest : List Char) : tryAlt hmAlt3 (c1 :: c2 :: rest) = none := by
  have e : hmAlt3 (c1 :: c2 :: rest) = some (dval c1, c2 :: rest) := by
    rw [hmAlt3_cons, if_pos h1]
  rw [tryAlt_eq_some e, colonTail_not_colon _ (isDigit_ne_colon c2 h2)]

theorem matchHM_fmt (hn : Nat) (h24 : hn < 24) (FM : List Char) :
    matchHM (pyFormat02dL (hn : Int) ++ ':' :: FM) =
      (matchM FM).map (fun p => (hn, p.1, p.2)) := by
  by_cases h10 : hn < 10
  · rw [pyFormat02dL_small (by omega), if_pos h10]
    have hd : (Nat.digitChar hn).isDigit = true := digitChar_isDigit hn (by omega)
    have hl : (['0', Nat.digitChar hn] ++ ':' :: FM) = '0' :: Nat.digitChar hn :: ':' :: FM := rfl
    rw [hl]
    unfold matchHM
    have h1 : tryAlt hmAlt1 ('0' :: Nat.digitChar hn :: ':' :: FM) = none := by
      unfold tryAlt
      rw [hmAlt1_cons, if_neg]
      intro hcon
      exact absurd hcon.1 (by decide)
    have h2 : tryAlt hmAlt2 ('0' :: Nat.digitChar hn :: ':' :: FM) =
        (matchM FM).map (fun p => (hn, p.1, p.2)) := by
      have e : hmAlt2 ('0' :: Nat.digitChar hn :: ':' :: FM) =
          some (10 * dval '0' + dval (Nat.digitChar hn), ':' :: FM) := by
        rw [hmAlt2_cons, if_pos ⟨Or.inl rfl, hd⟩]
      rw [tryAlt_eq_some e, colonTail_colon]
      have hz : dval '0' = 0 := rfl
      have hv : 10 * dval '0' + dval (Nat.digitChar hn) = hn := by
        rw [hz, dval_digitChar hn (by omega)]
        omega
      rw [hv]
    rw [h1, h2]
    cases hFM : matchM FM with
    | none =>
      rw [tryAlt3_digit_digit (by decide) hd (':' :: FM)]
      rfl
    | some p => rfl
  · rw [pyFormat02dL_small (by omega), if_neg h10]
    by_cases h20 : hn < 20
    · have hq : hn / 10 = 1 := by omega
      rw [hq]
      have h1eq : Nat.digitChar 1 = '1' := rfl
      rw [h1eq]
      have hd : (Nat.digitChar (hn % 10)).isDigit = true := digitChar_isDigit _ (by omega)
      have hl : (['1', Nat.digitChar (hn % 10)] ++ ':' :: FM)
          = '1' :: Nat.digitChar (hn % 10) :: ':' :: FM := rfl
      rw [hl]
      unfold matchHM
      have h1 : tryAlt hmAlt1 ('1' :: Nat.digitChar (hn % 10) :: ':' :: FM) = none := by
        unfold tryAlt
        rw [hmAlt1_cons, if_neg]
        intro hcon
        exact absurd hcon.1 (by decide)
      have h2 : tryAlt hmAlt2 ('1' :: Nat.digitChar (hn % 10) :: ':' :: FM) =
          (matchM FM).map (fun p => (hn, p.1, p.2)) := by
        have e : hmAlt2 ('1' :: Nat.digitChar (hn % 10) :: ':' :: FM) =
            some (10 * dval '1' + dval (Nat.digitChar (hn % 10)), ':' :: FM) := by
          rw [hmAlt2_cons, if_pos ⟨Or.inr rfl, hd⟩]
        rw [tryAlt_eq_some e, colonTail_colon]
        have hz : dval '1' = 1 := rfl
        have hv : 10 * dval '1' + dval (Nat.digitChar (hn % 10)) = hn := by
          rw [hz, dval_digitChar _ (by omega)]
          omega
        rw [hv]
      rw [h1, h2]
      cases hFM : matchM FM with
      | none =>
        rw [tryAlt3_digit_digit (by decide) hd (':' :: FM)]
        rfl
      | some p => rfl
    · have hq : hn / 10 = 2 := by omega
      rw [hq]
      have h2eq : Nat.digitChar 2 = '2' := rfl
      rw [h2eq]
      have hd : (Nat.digitChar (hn % 10)).isDigit = true := digitChar_isDigit _ (by omega)
      have hg3 : '0' ≤ Nat.digitChar (hn % 10) ∧ Nat.digitChar (hn % 10) ≤ '3' :=
        (digitChar_guard_le3 _ (by omega)).mpr (by omega)
      have hl : (['2', Nat.digitChar (hn % 10)] ++ ':' :: FM)
          = '2' :: Nat.digitChar (hn % 10) :: ':' :: FM := rfl
      rw [hl]
      unfold matchHM
      have h1 : tryAlt hmAlt1 ('2' :: Nat.digitChar (hn % 10) :: ':' :: FM) =
          (matchM FM).map (fun p => (hn, p.1, p.2)) := by
        have e : hmAlt1 ('2' :: Nat.digitChar (hn % 10) :: ':' :: FM) =
            some (20 + dval (Nat.digitChar (hn % 10)), ':' :: FM) := by
          rw [hmAlt1_cons, if_pos ⟨rfl, hg3⟩]
        rw [tryAlt_eq_some e, colonTail_colon]
        have hv : 20 + dval (Nat.digitChar (hn % 10)) = hn := by
          rw [dval_digitChar _ (by omega)]
          omega
        rw [hv]
      rw [h1]
      cases hFM : matchM FM with
      | none =>
        have h2 : tryAlt hmAlt2 ('2' :: Nat.digitChar (hn % 10) :: ':' :: FM) = none := by
          unfold tryAlt
          rw [hmAlt2_cons, if_neg]
          intro hcon
          rcases hcon.1 with hx | hx <;> exact absurd hx (by decide)
        rw [h2, tryAlt3_digit_digit (by decide) hd (':' :: FM)]
        rfl
      | some p => rfl

theorem matchHM_fmt_ge24 {h : Int} (hge : 24 ≤ h) (FM : List Char) :
    matchHM (pyFormat02dL h ++ ':' :: FM) = none := by
  have hcast : h = ((h.toNat : Nat) : Int) := by omega
  rw [hcast]
  have h24 : 24 ≤ h.toNat := by omega
  by_cases hlt : h.toNat < 100
  · rw [pyFormat02dL_small hlt, if_neg (by omega)]
    have hd10 : h.toNat / 10 < 10 := by omega
    have hm10 : h.toNat % 10 < 10 := by omega
    have hdd1 : (Nat.digitChar (h.toNat / 10)).isDigit = true := digitChar_isDigit _ hd10
    have hdd2 : (Nat.digitChar (h.toNat % 10)).isDigit = true := digitChar_isDigit _ hm10
    have hlist : ([Nat.digitChar (h.toNat / 10), Nat.digitChar (h.toNat % 10)] ++ ':' :: FM)
        = Nat.digitChar (h.toNat / 10) :: Nat.digitChar (h.toNat % 10) :: ':' :: FM := rfl
    rw [hlist]
    unfold matchHM
    have h1 : tryAlt hmAlt1
        (Nat.digitChar (h.toNat / 10) :: Nat.digitChar (h.toNat % 10) :: ':' :: FM) = none := by
      unfold tryAlt
      rw [hmAlt1_cons, if_neg]
      intro hcon
      have hq2 := (digitChar_eq_two _ hd10).mp hcon.1
      have hq3 := (digitChar_guard_le3 _ hm10).mp hcon.2
      omega
    have h2 : tryAlt hmAlt2
        (Nat.digitChar (h.toNat / 10) :: Nat.digitChar (h.toNat % 10) :: ':' :: FM) = none := by
      unfold tryAlt
      rw [hmAlt2_cons, if_neg]
      intro hcon
      have := (digitChar_guard01 _ hd10).mp hcon.1
      omega
    rw [h1, h2, tryAlt3_digit_digit hdd1 hdd2 (':' :: FM)]
    rfl
  · rw [pyFormat02dL_big (by omega)]
    have hlen := natChars_len3 (show 100 ≤ h.toNat by omega)
    rcases hl : natChars h.toNat with _ | ⟨c1, tl1⟩
    · rw [hl] at hlen; simp at hlen
    rcases tl1 with _ | ⟨c2, tl2⟩
    · rw [hl] at hlen; simp at hlen
    rcases tl2 with _ | ⟨c3, r⟩
    · rw [hl] at hlen; simp at hlen
    have hd1 : c1.isDigit = true := natChars_all_digit _ c1 (by rw [hl]; simp)
    have hd2 : c2.isDigit = true := natChars_all_digit _ c2 (by rw [hl]; simp)
    have hd3 : c3.isDigit = true := natChars_all_digit _ c3 (by rw [hl]; simp)
    have happ : ((c1 :: c2 :: c3 :: r) ++ ':' :: FM) = c1 :: c2 :: c3 :: (r ++ ':' :: FM) := rfl
    rw [happ]
    unfold matchHM
    have h1 : tryAlt hmAlt1 (c1 :: c2 :: c3 :: (r ++ ':' :: FM)) = none := by
      by_cases hg : c1 = '2' ∧ ('0' ≤ c2 ∧ c2 ≤ '3')
      · have e : hmAlt1 (c1 :: c2 :: c3 :: (r ++ ':' :: FM)) =
            some (20 + dval c2, c3 :: (r ++ ':' :: FM)) := by
          rw [hmAlt1_cons, if_pos hg]
        rw [tryAlt_eq_some e, colonTail_not_colon _ (isDigit_ne_colon c3 hd3)]
      · unfold tryAlt
        rw [hmAlt1_cons, if_neg hg]
    have h2 : tryAlt hmAlt2 (c1 :: c2 :: c3 :: (r ++ ':' :: FM)) = none := by
      by_cases hg : (c1 = '0' ∨ c1 = '1') ∧ c2.isDigit
      · have e : hmAlt2 (c1 :: c2 :: c3 :: (r ++ ':' :: FM)) =
            some (10 * dval c1 + dval c2, c3 :: (r ++ ':' :: FM)) := by
          rw [hmAlt2_cons, if_pos hg]
        rw [tryAlt_eq_some e, colonTail_not_colon _ (isDigit_ne_colon c3 hd3)]
      · unfold tryAlt
        rw [hmAlt2_cons, if_neg hg]
    rw [h1, h2, tryAlt3_digit_digit hd1 hd2 (c3 :: (r ++ ':' :: FM))]
    rfl

theorem matchHM_fmt_neg {h : Int} (hneg : h < 0) (FM : List Char) :
    matchHM (pyFormat02dL h ++ ':' :: FM) = none := by
  rw [pyFormat02dL_neg hneg]
  obtain ⟨c, cs, hcs⟩ : ∃ c cs, natChars h.natAbs = c :: cs := by
    cases hnc : natChars h.natAbs with
    | nil => exact absurd hnc (natChars_ne_nil _)
    | cons c cs => exact ⟨c, cs, rfl⟩
  rw [hcs]
  have happ : (('-' :: c :: cs) ++ ':' :: FM) = '-' :: c :: (cs ++ ':' :: FM) := rfl
  rw [happ]
  unfold matchHM
  have h1 : tryAlt hmAlt1 ('-' :: c :: (cs ++ ':' :: FM)) = none := by
    unfold tryAlt
    rw [hmAlt1_cons, if_neg]
    intro hcon
    exact absurd hcon.1 (by decide)
  have h2 : tryAlt hmAlt2 ('-' :: c :: (cs ++ ':' :: FM)) = none := by
    unfold tryAlt
    rw [hmAlt2_cons, if_neg]
    intro hcon
    rcases hcon.1 with hx | hx <;> exact absurd hx (by decide)
  have h3 : tryAlt hmAlt3 ('-' :: c :: (cs ++ ':' :: FM)) = none := by
    unfold tryAlt
    rw [hmAlt3_cons, if_neg]
    intro hcon
    exact absurd hcon (by decide)
  rw [h1, h2, h3]
  rfl

theorem strptimeHM_fmt (h m : Int) :
    strptimeHM (pyFormat02dL h ++ ':' :: pyFormat02dL m) =
      if 0 ≤ h ∧ h < 24 ∧ 0 ≤ m ∧ m < 60 then some (h.toNat, m.toNat) else none := by
  by_cases hh : 0 ≤ h ∧ h < 24
  · obtain ⟨hh0, hh24⟩ := hh
    have hcast : h = ((h.toNat : Nat) : Int) := by omega
    have hfm : matchHM (pyFormat02dL h ++ ':' :: pyFormat02dL m) =
        (matchM (pyFormat02dL m)).map (fun p => (h.toNat, p.1, p.2)) := by
      rw [hcast]
      exact matchHM_fmt h.toNat (by omega) _
    unfold strptimeHM
    rw [hfm]
    by_cases hm : 0 ≤ m ∧ m < 60
    · obtain ⟨hm0, hm60⟩ := hm
      have hmc : m = ((m.toNat : Nat) : Int) := by omega
      have hfmm : matchM (pyFormat02dL m) = some (m.toNat, []) := by
        rw [hmc]
        exact matchM_fmt_in_range m.toNat (by omega)
      rw [hfmm, if_pos ⟨hh0, hh24, hm0, hm60⟩]
      rfl
    · rw [if_neg (by tauto)]
      rcases not_and_or.mp hm with hm0 | hm60
      · push_neg at hm0
        rw [matchM_fmt_neg hm0]
        rfl
      · push_neg at hm60
        obtain ⟨v, c, r, he⟩ := matchM_fmt_ge60 hm60
        rw [he]
        rfl
  · rw [if_neg (by tauto)]
    unfold strptimeHM
    rcases not_and_or.mp hh with hh0 | hh24
    · push_neg at hh0
      rw [matchHM_fmt_neg hh0]
    · push_neg at hh24
      rw [matchHM_fmt_ge24 hh24]

theorem parseMeetingTime_isSome_iff (s : String) :
    (parseMeetingTime s).isSome = true ↔
      ∃ a b h m, splitCh ':' s.data = [a, b] ∧ pyIntChars a = some h ∧
        pyIntChars b = some m ∧ 0 ≤ h ∧ h < 24 ∧ 0 ≤ m ∧ m < 60 := by
  unfold parseMeetingTime
  rcases hsp : splitCh ':' s.data with _ | ⟨a, tl⟩
  · constructor
    · intro hs
      exact Bool.noConfusion hs
    · rintro ⟨a', b', h', m', heq, _⟩
      exact List.noConfusion heq
  rcases tl with _ | ⟨b, tl2⟩
  · constructor
    · intro hs
      exact Bool.noConfusion hs
    · rintro ⟨a', b', h', m', heq, _⟩
      injection heq with h1 h2
      exact List.noConfusion h2
  rcases tl2 with _ | ⟨c, r⟩
  swap
  · constructor
    · intro hs
      exact Bool.noConfusion hs
    · rintro ⟨a', b', h', m', heq, _⟩
      injection heq with h1 h2
      injection h2 with h3 h4
      exact List.noConfusion h4
  show (match pyIntChars a, pyIntChars b with
    | some h, some m => strptimeHM (pyFormat02dL h ++ ':' :: pyFormat02dL m)
    | _, _ => none).isSome = true ↔ _
  rcases hpa : pyIntChars a with _ | h
  · rcases hpb : pyIntChars b with _ | m
    · constructor
      · intro hs
        exact Bool.noConfusion hs
      · rintro ⟨a', b', h', m', heq, hpa', hpb', hcond⟩
        injection heq with h1 h2
        rw [← h1] at hpa'
        rw [hpa] at hpa'
        exact Option.noConfusion hpa'
    · constructor
      · intro hs
        exact Bool.noConfusion hs
      · rintro ⟨a', b', h', m', heq, hpa', hpb', hcond⟩
        injection heq with h1 h2
        rw [← h1] at hpa'
        rw [hpa] at hpa'
        exact Option.noConfusion hpa'
  · rcases hpb : pyIntChars b with _ | m
    · constructor
      · intro hs
        exact Bool.noConfusion hs
      · rintro ⟨a', b', h', m', heq, hpa', hpb', hcond⟩
        injection heq with h1 h2
        injection h2 with h3 h4
        rw [← h3] at hpb'
        rw [hpb] at hpb'
        exact Option.noConfusion hpb'
    · show (strptimeHM (pyFormat02dL h ++ ':' :: pyFormat02dL m)).isSome = true ↔ _
      rw [strptimeHM_fmt h m]
      by_cases hc : 0 ≤ h ∧ h < 24 ∧ 0 ≤ m ∧ m < 60
      · rw [if_pos hc]
        constructor
        · intro _
          exact ⟨a, b, h, m, rfl, hpa, hpb, hc.1, hc.2.1, hc.2.2.1, hc.2.2.2⟩
        · intro _
          rfl
      · rw [if_neg hc]
        constructor
        · intro hs
          exact Bool.noConfusion hs
        · rintro ⟨a', b', h', m', heq, hpa', hpb', h0, h24, m0, m60⟩
          exfalso
          injection heq with h1 h2
          injection h2 with h3 h4
          rw [← h1] at hpa'
          rw [← h3] at hpb'
          rw [hpa] at hpa'
          rw [hpb] at hpb'
          injection hpa' with hh'
          injection hpb' with hm'
          rw [← hh'] at h0 h24
          rw [← hm'] at m0 m60
          exact hc ⟨h0, h24, m0, m60⟩

/-- C4 (amended): the meeting-time parsing of `calculate_departure_times` is
lenient, not strictly `HH:MM`: the call succeeds exactly when the string
splits on `':'` into exactly two parts, each accepted by Python's `int()`
(whitespace-, sign- and underscore-tolerant), with hour value in 0–23 and
minute value in 0–59; every other string fails with the InvalidFormat error.
Strict `HH:MM` strings are a proper subset of the accepted ones. -/
theorem calculate_departure_times_format_characterization :
    ∀ (s : String) (participants : List String) (travel_times : List ℚ) (buffer_min : ℚ),
      (∃ l, calculate_departure_times s participants travel_times buffer_min = .ok l) ↔
        ∃ a b h m, splitCh ':' s.data = [a, b] ∧ pyIntChars a = some h ∧
          pyIntChars b = some m ∧ 0 ≤ h ∧ h < 24 ∧ 0 ≤ m ∧ m < 60 := by
  intro s ps ts buf
  rw [← parseMeetingTime_isSome_iff]
  unfold calculate_departure_times
  cases hp : parseMeetingTime s with
  | none =>
    constructor
    · rintro ⟨l, hl⟩
      exact Except.noConfusion hl
    · intro hs
      exact Bool.noConfusion hs
  | some pr =>
    obtain ⟨hh, mm⟩ := pr
    constructor
    · intro _
      rfl
    · intro _
      exact ⟨_, rfl⟩

/-- C4 counterexample: `"5:30"` is not strict 24-hour `HH:MM`, yet
`calculate_departure_times` succeeds on it — `int("5")` then re-formatting as
`"05:30"` makes `strptime` accept it — refuting "fails with `InvalidFormat`
for every string that is not of the strict HH:MM form". -/
theorem calculate_departure_times_nonstrict_counterexample :
    specStrictHHMM "5:30" = false ∧
      calculate_departure_times "5:30" ["A"] [1] 5 =
        .ok [⟨"A", 1, 5, "05:24", "05:30"⟩] := by
  constructor
  · rfl
  · with_unfolding_all rfl

/-- C4 witness: `"09:05"` splits into two int-parseable in-range parts, so
the call succeeds. -/
theorem calculate_departure_times_format_characterization_witness :
    ∃ l, calculate_departure_times "09:05" ["A"] [2] 5 = .ok l :=
  (calculate_departure_times_format_characterization "09:05" ["A"] [2] 5).mpr
    ⟨['0', '9'], ['0', '5'], 9, 5, by decide, by decide, by decide, by decide, by decide,
      by decide, by decide⟩
